import Mathlib

/-!
Shallow embedding of the Afterburner request-dispatch core
(`afterburner/api.py`) together with models of its collaborators:
the `parse` library's pattern matcher (anchored, case-insensitive by
default, with bare identifier `{name}` fields compiling to the non-greedy
group `(.+?)`), and — since `response.py` and `middleware.py` are not among
the sources — a `Response` record and a middleware pipeline modelled from
the specification.

Python exceptions are made explicit: a handler is a function that returns
the (in-place mutated) response together with an optional raised error, and
`handle_request` returns `Except Err Response`.
-/

namespace Afterburner

/-- Errors raised by the dispatch core.  `methodNotAllowed` stands for
`AttributeError('Method not allowed', request.method)`, `duplicateRoute` for
the `AssertionError` of `add_route`, and `appError` for an arbitrary
application exception raised inside a handler body. -/
inductive Err where
  | methodNotAllowed (method : String)
  | duplicateRoute (path : String)
  | appError (msg : String)
deriving DecidableEq, Repr

/-- Modelled from the spec: `response.py` is not among the sources.  Per the
spec's data model the Response is a mutable output object with status code
defaulting to 200 and a body, created fresh per request and mutated in place
by handlers. -/
structure Response where
  status_code : Nat := 200
  text : String := ""
deriving DecidableEq, Repr

/-- An inbound request: HTTP method and path (the parts of the WebOb
`Request` that `handle_request` consults). -/
structure Request where
  method : String
  path : String
deriving DecidableEq, Repr

/-- Model of Python's `str.lower()` as applied to HTTP method names:
character-wise ASCII lowercasing. -/
def lowerStr (s : String) : String :=
  String.mk (s.data.map Char.toLower)

/-! ### The `parse` library's matcher

`find_handler` calls `parse(path, request_path)` from the external `parse`
package (pinned at 1.13.0) with no extra arguments, so the library's
defaults apply: the pattern is compiled into a regular expression matched
with `re.IGNORECASE | re.DOTALL` (`case_sensitive=False` is the default),
anchored at both ends (`\A..\Z`).  Literal text therefore matches
case-insensitively; each bare identifier field `{name}` becomes the
non-greedy group `(.+?)`, whose capture is the actual path text; and
`result.named` maps each field name to its captured text.  We embed that: a
pattern is a list of segments (literal characters compared up to ASCII
case, and named holes); a hole matches one or more characters, preferring
the shortest capture that lets the remainder of the pattern match the rest
of the input (backtracking left to right, shortest first).  Only bare
identifier fields are modelled as captures — a `{...}` run that is not a
bare identifier stays literal text, mirroring the tokenizer, which only
recognises identifier-style fields (typed fields such as `{name:d}`,
attribute/index access, `{{`/`}}` escapes and unnamed `{}` fields are
outside the modelled fragment; no route pattern of the application or of
the claims uses them). -/

/-- A compiled pattern element: one literal character (matched up to ASCII
case under `re.IGNORECASE`), or a named field `{name}` (the compiled group
`(.+?)`). -/
inductive Seg where
  | chr (c : Char)
  | hole (name : String)
deriving DecidableEq, Repr

/-- The anchored matcher: `pmatch segs input` returns the named captures if
the whole of `input` matches the pattern.  A literal character matches
case-insensitively (`re.IGNORECASE`); a hole takes the shortest non-empty
capture that lets the rest of the pattern match (non-greedy `(.+?)`
semantics with left-to-right backtracking), the capture being the input's
own text. -/
def pmatch : List Seg → List Char → Option (List (String × String))
  | [], [] => some []
  | [], _ :: _ => none
  | Seg.chr _ :: _, [] => none
  | Seg.chr l :: rest, c :: cs =>
      if Char.toLower l = Char.toLower c then pmatch rest cs else none
  | Seg.hole _ :: _, [] => none
  | Seg.hole n :: rest, c :: cs =>
      match pmatch rest cs with
      | some m => some ((n, String.mk [c]) :: m)
      | none =>
          match pmatch (Seg.hole n :: rest) cs with
          | some ((_, g) :: m) => some ((n, String.mk (c :: g.data)) :: m)
          | _ => none

/-- An identifier (word) character, `\w` over ASCII: letter, digit or
underscore. -/
def isWordChar (c : Char) : Bool :=
  c.isAlphanum || c = '_'

/-- Compilation of a pattern string into segments, one input character per
step.  `mode = none` scans literal text, where `{` opens a candidate field;
`mode = some acc` is inside a candidate field, accumulating the (reversed)
name until the closing `}`.  At the `}`, the run is a capture field only if
the name is a non-empty identifier; otherwise the whole brace run stays
literal text.  A second `{` before any `}` means the pending `{` can no
longer open a field (field names contain no brace), so it is flushed as
literal text; likewise a `{` that is never closed. -/
def patSegsAux (mode : Option (List Char)) (input : List Char) : List Seg :=
  match input with
  | [] =>
      match mode with
      | none => []
      | some acc => Seg.chr '{' :: acc.reverse.map Seg.chr
  | c :: cs =>
      match mode with
      | none =>
          if c = '{' then patSegsAux (some []) cs
          else Seg.chr c :: patSegsAux none cs
      | some acc =>
          if c = '}' then
            if !acc.isEmpty && acc.all isWordChar then
              Seg.hole (String.mk acc.reverse) :: patSegsAux none cs
            else
              Seg.chr '{' :: acc.reverse.map Seg.chr ++ Seg.chr '}' :: patSegsAux none cs
          else if c = '{' then
            Seg.chr '{' :: acc.reverse.map Seg.chr ++ patSegsAux (some []) cs
          else
            patSegsAux (some (c :: acc)) cs

/-- Compiles a route pattern string. -/
def patSegs (pattern : String) : List Seg :=
  patSegsAux none pattern.data

/-! ### Routes, handlers and the dispatcher (`afterburner/api.py`) -/

/-- A handler callable: invoked as `handler(request, response, **kwargs)`,
it mutates the response in place and may raise.  We make both effects
explicit: the result is the response as mutated up to the point of return
or raise, paired with the raised error if any. -/
def HandlerFn : Type :=
  Request → Response → List (String × String) → Response × Option Err

/-- The two handler shapes `handle_request` distinguishes with
`inspect.isclass`: a plain function, or a class whose instances expose one
member per supported lowercase HTTP method name
(`getattr(handler(), request.method.lower(), None)`). -/
inductive Handler where
  | func (f : HandlerFn)
  | resource (methods : List (String × HandlerFn))

/-- Looks up a member by name on a class instance: the model of
`getattr(instance, name, None)` on the method table. -/
def getMember (name : String) : List (String × HandlerFn) → Option HandlerFn
  | [] => none
  | (k, f) :: rest => if k = name then some f else getMember name rest

/-- One entry of `self.routes`: `{'handler': handler, 'allowed_methods': allowed_methods}`. -/
structure RouteData where
  handler : Handler
  allowed_methods : List String

/-- The mutable `API` state that dispatch consults: `self.routes` (a dict,
insertion-ordered, here an association list keyed by the pattern string) and
`self.exception_handler`.  The exception handler mutates the response it is
given (`self.exception_handler(request, response, e)`), so it is modelled as
returning the mutated response. -/
structure API where
  routes : List (String × RouteData) := []
  exception_handler : Option (Request → Response → Err → Response) := none

/-- `API.add_route`: asserts the path is not already registered (raising
`AssertionError` — modelled as `Err.duplicateRoute` — before any mutation),
defaults `allowed_methods` to the nine standard HTTP methods, and appends
the entry to the route dict.  The returned pair is the post-call `API`
state together with the raised error, if any. -/
def add_route (api : API) (path : String) (handler : Handler)
    (allowed_methods : Option (List String)) : API × Option Err :=
  if path ∈ api.routes.map Prod.fst then
    (api, some (Err.duplicateRoute path))
  else
    let am := allowed_methods.getD
      ["get", "head", "post", "put", "delete", "connect", "options", "trace", "patch"]
    ({ api with routes := api.routes ++ [(path, ⟨handler, am⟩)] }, none)

/-- `API.find_handler`: iterates the route dict in insertion order and
returns the first entry whose pattern parses the request path, together
with the named captures (`parse_result.named`); `None` when nothing
matches. -/
def find_handler (routes : List (String × RouteData)) (request_path : String) :
    Option (RouteData × List (String × String)) :=
  match routes with
  | [] => none
  | (path, handler_data) :: rest =>
      match pmatch (patSegs path) request_path.data with
      | some named => some (handler_data, named)
      | none => find_handler rest request_path

/-- `API.default_response`: mutates the response to status 404 with body
`'Not found'`. -/
def default_response (response : Response) : Response :=
  { response with status_code := 404, text := "Not found" }

/-- The body of `handle_request`'s `try` block for a matched route: resolve
the handler (class member lookup or allowed-methods check) and invoke it.
Returns the response as mutated so far together with the raised error, if
any. -/
def resolve_invoke (handler_data : RouteData) (request : Request)
    (response : Response) (kwargs : List (String × String)) :
    Response × Option Err :=
  match handler_data.handler with
  | Handler.resource methods =>
      match getMember (lowerStr request.method) methods with
      | none => (response, some (Err.methodNotAllowed request.method))
      | some h => h request response kwargs
  | Handler.func f =>
      if lowerStr request.method ∈ handler_data.allowed_methods then
        f request response kwargs
      else
        (response, some (Err.methodNotAllowed request.method))

/-- `API.handle_request`: creates a fresh response, resolves the route; on
no match applies `default_response`; otherwise resolves and invokes the
handler.  A raised error is passed to the exception handler when one is
registered (which mutates the same response object), and re-raised
otherwise. -/
def handle_request (api : API) (request : Request) : Except Err Response :=
  let response : Response := {}
  match find_handler api.routes request.path with
  | none => Except.ok (default_response response)
  | some (handler_data, kwargs) =>
      match resolve_invoke handler_data request response kwargs with
      | (resp, none) => Except.ok resp
      | (resp, some e) =>
          match api.exception_handler with
          | none => Except.error e
          | some eh => Except.ok (eh request resp e)

/-- `API.add_exception_handler`: replaces the single exception-handler
slot. -/
def add_exception_handler (api : API)
    (eh : Request → Response → Err → Response) : API :=
  { api with exception_handler := some eh }

/-! ### The middleware pipeline

Modelled from the spec: `middleware.py` is not among the sources.  Per the
spec each middleware unit exposes side-effect-only hooks
`process_request(request)` and `process_response(request, response)`; the
pipeline is built by wrapping the core dispatch callable with each unit in
turn, the most recently registered unit wrapping innermost.  Side effects
are made explicit as a world state `W` threaded through the hooks and the
core call. -/

/-- Modelled from the spec: a middleware unit's two hook points, as
world-state transformers (their results are otherwise discarded). -/
structure MWUnit (W : Type) where
  process_request : Request → W → W
  process_response : Request → Response → W → W

/-- Modelled from the spec: wrapping an inner dispatch callable with one
middleware unit — `process_request` fires before the wrapped call and
`process_response` after it, on the response the wrapped call produced. -/
def wrapUnit {W : Type} (u : MWUnit W)
    (inner : Request → W → Response × W) : Request → W → Response × W :=
  fun req w =>
    let w1 := u.process_request req w
    let p := inner req w1
    (p.1, u.process_response req p.1 p.2)

/-- Modelled from the spec: the pipeline over the registration-ordered list
of units, each later-registered unit wrapping closer to the core call
(last-added innermost). -/
def buildPipeline {W : Type} (units : List (MWUnit W))
    (core : Request → W → Response × W) : Request → W → Response × W :=
  units.foldr wrapUnit core

/-- Hook-invocation events, used to observe the order in which a pipeline
fires its hooks: `reqEv i`/`respEv i` record unit `i`'s `process_request` /
`process_response` firing, `coreEv` the core dispatch call. -/
inductive Ev where
  | reqEv (i : Nat)
  | respEv (i : Nat)
  | coreEv
deriving DecidableEq, Repr

/-- The instrumented middleware unit with identity `i`: each hook appends
its event to the log and has no other effect. -/
def logUnit (i : Nat) : MWUnit (List Ev) :=
  ⟨fun _ w => w ++ [Ev.reqEv i], fun _ _ w => w ++ [Ev.respEv i]⟩

/-- The instrumented core dispatch: logs `coreEv` and produces a fixed
response. -/
def logCore (resp : Response) : Request → List Ev → Response × List Ev :=
  fun _ w => (resp, w ++ [Ev.coreEv])

/-! ### Concrete instances used as witnesses and counterexamples -/

/-- A handler that mutates the response (status 500) and then raises. -/
def c1Fail : HandlerFn :=
  fun _ r _ => ({ r with status_code := 500 }, some (Err.appError "boom"))

/-- An exception handler that only sets the body text, leaving the status
code it received untouched. -/
def c1Eh : Request → Response → Err → Response :=
  fun _ r _ => { r with text := "handled" }

/-- An API with one function route whose handler mutates and raises, and a
registered exception handler. -/
def c1Api : API :=
  { routes := [("/x", ⟨Handler.func c1Fail, ["get"]⟩)],
    exception_handler := some c1Eh }

/-- The default list `add_route` installs when `allowed_methods` is
omitted. -/
def defaultMethods : List String :=
  ["get", "head", "post", "put", "delete", "connect", "options", "trace", "patch"]

/-- A `get` member for a class-based resource. -/
def c2Get : HandlerFn :=
  fun _ r _ => ({ r with text := "books" }, none)

/-- An API with one class-based route exposing only a `get` member; its
stored `allowed_methods` is the full default list. -/
def c2Api : API :=
  { routes := [("/books", ⟨Handler.resource [("get", c2Get)], defaultMethods⟩)],
    exception_handler := none }

/-- A plain function handler. -/
def c3Handler : HandlerFn :=
  fun _ r _ => ({ r with text := "Hello" }, none)

/-- An API with one function route restricted to `['post']`. -/
def c3Api : API :=
  { routes := [("/home", ⟨Handler.func c3Handler, ["post"]⟩)],
    exception_handler := none }

/-- An API with one raising function route and no exception handler. -/
def c7Api : API :=
  { routes := [("/x", ⟨Handler.func c1Fail, ["get"]⟩)],
    exception_handler := none }

/-- A handler that records the extracted path parameter in the response
body. -/
def c6Handler : HandlerFn :=
  fun _ r kwargs =>
    ({ r with text := String.join ((kwargs.map Prod.snd)) }, none)

/-- An API with one parameterised route `/r/{name}`. -/
def c6Api : API :=
  { routes := [("/r/{name}", ⟨Handler.func c6Handler, defaultMethods⟩)],
    exception_handler := none }

/-- An API with the parameterised route `/reverse/{name}`. -/
def c6RevApi : API :=
  { routes := [("/reverse/{name}", ⟨Handler.func c6Handler, defaultMethods⟩)],
    exception_handler := none }

/-- An API with one function route whose `allowed_methods` was registered
with the uppercase spelling `['GET']`. -/
def c10Api : API :=
  { routes := [("/u", ⟨Handler.func c3Handler, ["GET"]⟩)],
    exception_handler := none }

/-! ### Helper lemmas -/

theorem toNat_ofNat_valid (n : Nat) (h : n.isValidChar) :
    (Char.ofNat n).toNat = n := by
  rw [Char.ofNat, dif_pos h]
  rfl

/-- ASCII lowercasing never produces a character in the range `A`–`Z`. -/
theorem toLower_not_upper (c : Char) :
    ¬(65 ≤ (Char.toLower c).toNat ∧ (Char.toLower c).toNat ≤ 90) := by
  simp only [Char.toLower]
  split
  · next h =>
      have hv : (c.toNat + 32).isValidChar := Or.inl (by omega)
      rw [toNat_ofNat_valid _ hv]
      omega
  · next h => omega

/-- Matching a run of literal characters consumes exactly those characters. -/
theorem pmatch_chrs_append (pre : List Char) (segs : List Seg) (input : List Char) :
    pmatch (pre.map Seg.chr ++ segs) (pre ++ input) = pmatch segs input := by
  induction pre with
  | nil => rfl
  | cons c cs ih => simp [pmatch, ih]

/-- A pattern made only of literal characters matches only inputs of
exactly its own length (each literal consumes one character), with no
captures. -/
theorem pmatch_chrs_length (s : List Char) :
    ∀ input m, pmatch (s.map Seg.chr) input = some m →
      input.length = s.length ∧ m = [] := by
  induction s with
  | nil =>
      intro input m h
      cases input with
      | nil => simpa [pmatch] using h.symm
      | cons c cs => simp [pmatch] at h
  | cons l ls ih =>
      intro input m h
      cases input with
      | nil => simp [pmatch] at h
      | cons c cs =>
          by_cases hc : Char.toLower l = Char.toLower c
          · simp only [List.map, pmatch, if_pos hc] at h
            have := ih cs m h
            simp [this.1, this.2]
          · simp [pmatch, hc] at h

/-- A hole followed by a literal tail captures exactly the substituted
non-empty value: `pmatch (hole n ++ suf) (v ++ suf) = {n ↦ v}`. -/
theorem pmatch_hole_chrs (n : String) (suf : List Char) :
    ∀ v : List Char, v ≠ [] →
      pmatch (Seg.hole n :: suf.map Seg.chr) (v ++ suf) = some [(n, String.mk v)] := by
  intro v
  induction v with
  | nil => intro h; exact absurd rfl h
  | cons c v' ih =>
      intro _
      cases v' with
      | nil =>
          have hsuf : pmatch (suf.map Seg.chr) suf = some [] := by
            have := pmatch_chrs_append suf [] []
            simpa [pmatch] using this
          simp [pmatch, hsuf]
      | cons d v'' =>
          have hne : d :: v'' ≠ ([] : List Char) := by simp
          have hlit : pmatch (suf.map Seg.chr) ((d :: v'') ++ suf) = none := by
            cases hm : pmatch (suf.map Seg.chr) ((d :: v'') ++ suf) with
            | none => rfl
            | some m =>
                have h1 := (pmatch_chrs_length suf _ m hm).1
                simp at h1
                omega
          have hrec := ih hne
          have hstep : pmatch (Seg.hole n :: suf.map Seg.chr) ((c :: d :: v'') ++ suf) =
              match pmatch (suf.map Seg.chr) ((d :: v'') ++ suf) with
              | some m => some ((n, String.mk [c]) :: m)
              | none =>
                  match pmatch (Seg.hole n :: suf.map Seg.chr) ((d :: v'') ++ suf) with
                  | some ((_, g) :: m) => some ((n, String.mk (c :: g.data)) :: m)
                  | _ => none := rfl
          rw [hstep, hlit, hrec]

/-- A matched function route with an allowed method makes `handle_request`
behave as exactly one invocation of the handler on the request, the fresh
response and the extracted parameters. -/
theorem dispatch_func_invoke (api : API) (request : Request) (rd : RouteData)
    (kwargs : List (String × String)) (f : HandlerFn)
    (hfind : find_handler api.routes request.path = some (rd, kwargs))
    (hfun : rd.handler = Handler.func f)
    (hin : lowerStr request.method ∈ rd.allowed_methods)
    (hno : api.exception_handler = none) :
    handle_request api request =
      (match f request {} kwargs with
       | (resp, none) => Except.ok resp
       | (_, some e) => Except.error e) := by
  cases hh : f request {} kwargs with
  | mk resp err =>
      cases err with
      | none => simp [handle_request, hfind, resolve_invoke, hfun, hin, hh]
      | some e => simp [handle_request, hfind, resolve_invoke, hfun, hin, hh, hno]

/-- Route entries whose patterns do not match the path are skipped by
`find_handler`. -/
theorem find_handler_after_misses (before rest : List (String × RouteData)) (p : String)
    (h : ∀ q ∈ before, pmatch (patSegs q.1) p.data = none) :
    find_handler (before ++ rest) p = find_handler rest p := by
  induction before with
  | nil => rfl
  | cons q qs ih =>
      cases q with
      | mk qp qd =>
          have hq := h (qp, qd) (List.mem_cons_self _ _)
          simp only [List.cons_append, find_handler, hq]
          exact ih (fun r hr => h r (List.mem_cons_of_mem _ hr))

/-- The instrumented pipeline appends: every `process_request` in
registration (outermost-first) order, then the core event, then every
`process_response` in the exact reverse order. -/
theorem buildPipeline_log (resp : Response) (req : Request) :
    ∀ (ids : List Nat) (w : List Ev),
      buildPipeline (ids.map logUnit) (logCore resp) req w =
        (resp, w ++ ids.map Ev.reqEv ++ [Ev.coreEv] ++ (ids.map Ev.respEv).reverse) := by
  intro ids
  induction ids with
  | nil => intro w; simp [buildPipeline, logCore]
  | cons i ids ih =>
      intro w
      have hfold : buildPipeline ((i :: ids).map logUnit) (logCore resp) =
          wrapUnit (logUnit i) (buildPipeline (ids.map logUnit) (logCore resp)) := rfl
      rw [hfold]
      simp only [wrapUnit, logUnit]
      rw [ih (w ++ [Ev.reqEv i])]
      simp [List.append_assoc]

/-! ### The claims -/

/-- C4: for every request whose path matches no registered route,
`handle_request` returns a response with status 404 and body
`"Not found"`, for every HTTP method, and never raises. -/
theorem unmatched_path_default_404 (api : API) (request : Request)
    (hfind : find_handler api.routes request.path = none) :
    handle_request api request = Except.ok { status_code := 404, text := "Not found" } := by
  simp [handle_request, hfind, default_response]

/-- Witness for C4 at a concrete no-match input. -/
theorem unmatched_path_default_404_witness :
    handle_request c3Api ⟨"PUT", "/nope"⟩ =
      Except.ok { status_code := 404, text := "Not found" } :=
  unmatched_path_default_404 c3Api ⟨"PUT", "/nope"⟩ rfl

/-- C5: registering a route whose pattern string is already present always
raises the duplicate-route error, whatever the handler. -/
theorem duplicate_route_registration_fails (api : API) (path : String)
    (handler : Handler) (am : Option (List String))
    (hdup : path ∈ api.routes.map Prod.fst) :
    (add_route api path handler am).2 = some (Err.duplicateRoute path) := by
  simp [add_route, hdup]

/-- Witness for C5: re-registering `/home` (with a class-based handler this
time) fails. -/
theorem duplicate_route_registration_fails_witness :
    (add_route c3Api "/home" (Handler.resource [("get", c2Get)]) none).2 =
      some (Err.duplicateRoute "/home") :=
  duplicate_route_registration_fails c3Api "/home"
    (Handler.resource [("get", c2Get)]) none (by decide)

/-- C9: a duplicate registration raises without touching the route table:
the post-call state is exactly the pre-call state, so the previously
registered handler and `allowed_methods` survive unchanged. -/
theorem add_route_duplicate_atomic (api : API) (path : String)
    (handler : Handler) (am : Option (List String))
    (hdup : path ∈ api.routes.map Prod.fst) :
    add_route api path handler am = (api, some (Err.duplicateRoute path)) := by
  simp [add_route, hdup]

/-- Witness for C9 at a concrete duplicate registration. -/
theorem add_route_duplicate_atomic_witness :
    add_route c3Api "/home" (Handler.func c1Fail) (some ["get"]) =
      (c3Api, some (Err.duplicateRoute "/home")) :=
  add_route_duplicate_atomic c3Api "/home" (Handler.func c1Fail) (some ["get"]) (by decide)

/-- C7: with no exception handler registered, a raising resolution or
handler invocation makes `handle_request` re-raise that very exception; the
in-progress response `r` does not appear in the result. -/
theorem no_exception_handler_reraises (api : API) (request : Request)
    (hd : RouteData) (kwargs : List (String × String)) (r : Response) (e : Err)
    (hfind : find_handler api.routes request.path = some (hd, kwargs))
    (hstep : resolve_invoke hd request {} kwargs = (r, some e))
    (hno : api.exception_handler = none) :
    handle_request api request = Except.error e := by
  simp [handle_request, hfind, hstep, hno]

/-- Witness for C7: the raising handler's partially mutated response
(status 500) is discarded and the exception re-raised. -/
theorem no_exception_handler_reraises_witness :
    handle_request c7Api ⟨"GET", "/x"⟩ = Except.error (Err.appError "boom") :=
  no_exception_handler_reraises c7Api ⟨"GET", "/x"⟩
    ⟨Handler.func c1Fail, ["get"]⟩ [] { status_code := 500 } (Err.appError "boom")
    rfl rfl rfl

/-- C2: for a class-based route, a request whose lowercased method names a
missing member raises the method-not-allowed error carrying the attempted
method, and the stored `allowed_methods` is never consulted: if the member
exists the handler runs whatever `allowed_methods` holds (the route data
`hd` is arbitrary in both conjuncts apart from its handler). -/
theorem resource_method_membership (api : API) (request : Request)
    (hd : RouteData) (kwargs : List (String × String))
    (methods : List (String × HandlerFn))
    (hfind : find_handler api.routes request.path = some (hd, kwargs))
    (hres : hd.handler = Handler.resource methods)
    (hno : api.exception_handler = none) :
    (getMember (lowerStr request.method) methods = none →
        handle_request api request = Except.error (Err.methodNotAllowed request.method)) ∧
    (∀ h : HandlerFn, getMember (lowerStr request.method) methods = some h →
        handle_request api request =
          (match h request {} kwargs with
           | (resp, none) => Except.ok resp
           | (_, some e) => Except.error e)) := by
  constructor
  · intro hmiss
    simp [handle_request, hfind, resolve_invoke, hres, hmiss, hno]
  · intro h hhit
    cases hh : h request {} kwargs with
    | mk resp err =>
        cases err with
        | none => simp [handle_request, hfind, resolve_invoke, hres, hhit, hh]
        | some e => simp [handle_request, hfind, resolve_invoke, hres, hhit, hh, hno]

/-- Witness for C2: `POST /books` on a resource with only a `get` member
fails with the method-not-allowed error even though the stored
`allowed_methods` (the full default list) contains `post`, while `GET`
dispatches to the `get` member. -/
theorem resource_method_membership_witness :
    handle_request c2Api ⟨"POST", "/books"⟩ =
        Except.error (Err.methodNotAllowed "POST") ∧
    handle_request c2Api ⟨"GET", "/books"⟩ =
        Except.ok { status_code := 200, text := "books" } := by
  constructor
  · exact (resource_method_membership c2Api ⟨"POST", "/books"⟩
      ⟨Handler.resource [("get", c2Get)], defaultMethods⟩ [] [("get", c2Get)]
      rfl rfl rfl).1 rfl
  · exact ((resource_method_membership c2Api ⟨"GET", "/books"⟩
      ⟨Handler.resource [("get", c2Get)], defaultMethods⟩ [] [("get", c2Get)]
      rfl rfl rfl).2 c2Get rfl).trans rfl

/-- C3: for a function route with a restricted `allowed_methods` list, a
disallowed method raises the method-not-allowed error, and an allowed
method makes `handle_request` behave as exactly one invocation of the
handler on the request, the fresh response and the extracted path
parameters. -/
theorem function_route_allowed_methods_dispatch (api : API) (request : Request)
    (hd : RouteData) (kwargs : List (String × String)) (f : HandlerFn)
    (hfind : find_handler api.routes request.path = some (hd, kwargs))
    (hfun : hd.handler = Handler.func f)
    (hno : api.exception_handler = none) :
    (lowerStr request.method ∉ hd.allowed_methods →
        handle_request api request = Except.error (Err.methodNotAllowed request.method)) ∧
    (lowerStr request.method ∈ hd.allowed_methods →
        handle_request api request =
          (match f request {} kwargs with
           | (resp, none) => Except.ok resp
           | (_, some e) => Except.error e)) := by
  constructor
  · intro hnotin
    simp [handle_request, hfind, resolve_invoke, hfun, hnotin, hno]
  · intro hin
    cases hh : f request {} kwargs with
    | mk resp err =>
        cases err with
        | none => simp [handle_request, hfind, resolve_invoke, hfun, hin, hh]
        | some e => simp [handle_request, hfind, resolve_invoke, hfun, hin, hh, hno]

/-- Witness for C3: on the `['post']`-restricted route, `GET` fails and
`POST` invokes the handler. -/
theorem function_route_allowed_methods_dispatch_witness :
    handle_request c3Api ⟨"GET", "/home"⟩ =
        Except.error (Err.methodNotAllowed "GET") ∧
    handle_request c3Api ⟨"POST", "/home"⟩ =
        Except.ok { status_code := 200, text := "Hello" } := by
  constructor
  · exact (function_route_allowed_methods_dispatch c3Api ⟨"GET", "/home"⟩
      ⟨Handler.func c3Handler, ["post"]⟩ [] c3Handler rfl rfl rfl).1 (by decide)
  · exact ((function_route_allowed_methods_dispatch c3Api ⟨"POST", "/home"⟩
      ⟨Handler.func c3Handler, ["post"]⟩ [] c3Handler rfl rfl rfl).2 (by decide)).trans rfl

/-- Counterexample to C1 as stated: the failing handler's pre-raise
mutation (status 500) remains visible in the returned response, so the
response does not reflect only the exception handler's mutations — applying
the exception handler to a fresh response would give status 200. -/
theorem exception_partial_mutation_cex :
    handle_request c1Api ⟨"GET", "/x"⟩ =
        Except.ok { status_code := 500, text := "handled" } ∧
    c1Eh ⟨"GET", "/x"⟩ ({} : Response) (Err.appError "boom") =
        { status_code := 200, text := "handled" } ∧
    ({ status_code := 500, text := "handled" } : Response) ≠
        { status_code := 200, text := "handled" } :=
  ⟨rfl, rfl, by decide⟩

/-- C1 (amended): with an exception handler registered, a raising dispatch
makes `handle_request` return exactly one application of the exception
handler to `(request, response, exception)`, where the response argument is
the in-progress response retaining any mutations the failing handler made
before raising. -/
theorem exception_handler_invoked_once_on_raise (api : API) (request : Request)
    (eh : Request → Response → Err → Response)
    (hd : RouteData) (kwargs : List (String × String)) (r : Response) (e : Err)
    (hfind : find_handler api.routes request.path = some (hd, kwargs))
    (hstep : resolve_invoke hd request {} kwargs = (r, some e))
    (heh : api.exception_handler = some eh) :
    handle_request api request = Except.ok (eh request r e) := by
  simp [handle_request, hfind, hstep, heh]

/-- Witness for C1 (amended) at the concrete raising route. -/
theorem exception_handler_invoked_once_on_raise_witness :
    handle_request c1Api ⟨"GET", "/x"⟩ =
      Except.ok (c1Eh ⟨"GET", "/x"⟩ { status_code := 500 } (Err.appError "boom")) :=
  exception_handler_invoked_once_on_raise c1Api ⟨"GET", "/x"⟩ c1Eh
    ⟨Handler.func c1Fail, ["get"]⟩ [] { status_code := 500 } (Err.appError "boom")
    rfl rfl rfl

/-- C10: the membership test compares the lowercased method against the
stored entries verbatim, so when every stored entry contains an uppercase
letter (e.g. `['GET']`), every request — whatever its method — fails the
check and raises the method-not-allowed error. -/
theorem uppercase_allowed_methods_always_rejected (api : API) (request : Request)
    (hd : RouteData) (kwargs : List (String × String)) (f : HandlerFn)
    (hfind : find_handler api.routes request.path = some (hd, kwargs))
    (hfun : hd.handler = Handler.func f)
    (hupper : ∀ s ∈ hd.allowed_methods, ∃ c ∈ s.data, 65 ≤ c.toNat ∧ c.toNat ≤ 90)
    (hno : api.exception_handler = none) :
    handle_request api request = Except.error (Err.methodNotAllowed request.method) := by
  have hnotin : lowerStr request.method ∉ hd.allowed_methods := by
    intro hin
    obtain ⟨c, hc, hrange⟩ := hupper _ hin
    have hdata : (lowerStr request.method).data = request.method.data.map Char.toLower := rfl
    rw [hdata] at hc
    obtain ⟨c', _, rfl⟩ := List.mem_map.mp hc
    exact toLower_not_upper c' hrange
  simp [handle_request, hfind, resolve_invoke, hfun, hnotin, hno]

/-- Witness for C10: a `GET` request against the route registered with
`['GET']` is itself rejected. -/
theorem uppercase_allowed_methods_always_rejected_witness :
    handle_request c10Api ⟨"GET", "/u"⟩ = Except.error (Err.methodNotAllowed "GET") :=
  uppercase_allowed_methods_always_rejected c10Api ⟨"GET", "/u"⟩
    ⟨Handler.func c3Handler, ["GET"]⟩ [] c3Handler rfl rfl (by decide) rfl

/-- C8: registering `N` instrumented middleware units and dispatching one
request fires all `N` `process_request` hooks before the core call and all
`N` `process_response` hooks after it, the latter in the exact reverse of
the former's order. -/
theorem middleware_stack_discipline (N : Nat) (resp : Response) (req : Request) :
    buildPipeline ((List.range N).map logUnit) (logCore resp) req [] =
      (resp, (List.range N).map Ev.reqEv ++ [Ev.coreEv] ++
        ((List.range N).map Ev.respEv).reverse) := by
  simpa using buildPipeline_log resp req (List.range N) []

/-- Counterexample to C6 as stated: for the registered pattern
`/r/{name}` and the segment value `v = ""` (which does not contain `/`),
the substituted path `/r/` does not match the route at all — the dispatcher
falls through to the 404 default and the handler is never invoked. -/
theorem placeholder_empty_value_no_match_cex :
    find_handler c6Api.routes "/r/" = none ∧
    handle_request c6Api ⟨"GET", "/r/"⟩ =
      Except.ok { status_code := 404, text := "Not found" } :=
  ⟨rfl, rfl⟩

/-- C6 (amended): for a registered single-placeholder pattern and every
non-empty segment value `v` not containing `/`, dispatching the substituted
path (when no earlier-registered pattern shadows it) matches that route,
extracts `{name: v}`, and invokes the handler once with exactly those
keyword arguments. -/
theorem placeholder_substitution_extracts_param (api : API)
    (method pat name : String) (pre suf : List Char) (v : String)
    (rd : RouteData) (f : HandlerFn)
    (before after : List (String × RouteData))
    (hpat : patSegs pat = pre.map Seg.chr ++ Seg.hole name :: suf.map Seg.chr)
    (hroutes : api.routes = before ++ (pat, rd) :: after)
    (hshadow : ∀ q ∈ before, pmatch (patSegs q.1) (pre ++ v.data ++ suf) = none)
    (hv : v.data ≠ [])
    (hslash : '/' ∉ v.data)
    (hfun : rd.handler = Handler.func f)
    (hallowed : lowerStr method ∈ rd.allowed_methods)
    (hno : api.exception_handler = none) :
    find_handler api.routes (String.mk (pre ++ v.data ++ suf)) =
        some (rd, [(name, v)]) ∧
    handle_request api ⟨method, String.mk (pre ++ v.data ++ suf)⟩ =
      (match f ⟨method, String.mk (pre ++ v.data ++ suf)⟩ {} [(name, v)] with
       | (resp, none) => Except.ok resp
       | (_, some e) => Except.error e) := by
  have hkey : pmatch (patSegs pat) (pre ++ v.data ++ suf) = some [(name, v)] := by
    rw [hpat]
    have h1 : pre ++ v.data ++ suf = pre ++ (v.data ++ suf) := by
      rw [List.append_assoc]
    rw [h1, pmatch_chrs_append pre (Seg.hole name :: suf.map Seg.chr) (v.data ++ suf)]
    rw [pmatch_hole_chrs name suf v.data hv]
  have hfh : find_handler api.routes (String.mk (pre ++ v.data ++ suf)) =
      some (rd, [(name, v)]) := by
    rw [hroutes]
    rw [find_handler_after_misses before _ _ hshadow]
    simp only [find_handler]
    rw [hkey]
  exact ⟨hfh, dispatch_func_invoke api ⟨method, String.mk (pre ++ v.data ++ suf)⟩
    rd [(name, v)] f hfh hfun hallowed hno⟩

/-- Witness for C6 (amended): `/reverse/{name}` with `v = "abc"` matches
and the handler receives `{name: "abc"}`. -/
theorem placeholder_substitution_extracts_param_witness :
    find_handler c6RevApi.routes "/reverse/abc" =
        some (⟨Handler.func c6Handler, defaultMethods⟩, [("name", "abc")]) ∧
    handle_request c6RevApi ⟨"GET", "/reverse/abc"⟩ =
        Except.ok { status_code := 200, text := "abc" } := by
  have h := placeholder_substitution_extracts_param c6RevApi "GET" "/reverse/{name}"
    "name" "/reverse/".data [] "abc" ⟨Handler.func c6Handler, defaultMethods⟩ c6Handler
    [] [] (by decide) rfl (by intro q hq; cases hq) (by decide) (by decide) rfl
    (by decide) rfl
  exact ⟨h.1, h.2.trans rfl⟩

end Afterburner
